import Mathlib

/-!
Verification development for the printf-log-formatter core: a shallow
embedding of the expression classifier, the format-value resolver, the two
template builders (f-string and str.format), quote inference, and the splice
engine, translated from the Rust sources (src/visitor.rs, src/cli.rs,
src/parse_fstring.rs, src/parse_format.rs, src/fix_file.rs).

Strings are modelled by Lean `String`; byte offsets of the Rust code are
modelled by character offsets (all inputs considered here are ASCII, where
the two coincide).  Curly braces inside string literals are written with
the escapes \x7b and \x7d, and single quotes with \x27.
-/

namespace PrintfLogFormatter

/-- Source location: 1-indexed row, 0-indexed column (rustpython ast). -/
structure Loc where
  row : Nat
  col : Nat
deriving Repr, DecidableEq

/-- Binary operators, as in rustpython ast::Operator. -/
inductive Operator where
  | add | sub | mult | matMult | div | mod | pow
  | lshift | rshift | bitOr | bitXor | bitAnd | floorDiv
deriving Repr, DecidableEq

/-- Python constants, as in rustpython ast::Constant.  Float constants carry
their Rust `Display` rendering as an uninterpreted string (floating-point
formatting itself is outside the model); Complex constants are omitted for
the same reason. -/
inductive Const where
  | none
  | bool (value : Bool)
  | str (value : String)
  | bytes (value : String)
  | int (value : Int)
  | float (repr : String)
  | ellipsis
  | tuple (value : List Const)
deriving Repr

mutual
/-- An expression node with its source span, as in rustpython ast::Expr. -/
inductive Expr where
  | mk (node : ExprKind) (location : Loc) (end_location : Loc)

/-- The expression kinds the tool inspects, as in rustpython ast::ExprKind. -/
inductive ExprKind where
  | name (id : String)
  | attribute (value : Expr) (attr : String)
  | constant (value : Const)
  | call (func : Expr) (args : List Expr) (keywords : List Keyword)
  | binOp (left : Expr) (op : Operator) (right : Expr)
  | subscript (value : Expr) (slice : Expr)
  | listComp (elt : Expr) (generators : List Comprehension)
  | generatorExp (elt : Expr) (generators : List Comprehension)
  | dictComp (key : Expr) (value : Expr) (generators : List Comprehension)
  | joinedStr (values : List Expr)
  | formattedValue (value : Expr)
  | boolOp (values : List Expr)

/-- A keyword argument `arg=value` (arg = none for `**`-style), as in
rustpython ast::KeywordData. -/
inductive Keyword where
  | mk (arg : Option String) (value : Expr)

/-- One `for target in iter` clause of a comprehension. -/
inductive Comprehension where
  | mk (target : Expr) (iter : Expr)
end

def Expr.node : Expr → ExprKind
  | .mk n _ _ => n

def Expr.location : Expr → Loc
  | .mk _ l _ => l

def Expr.end_location : Expr → Loc
  | .mk _ _ e => e

def Keyword.arg : Keyword → Option String
  | .mk a _ => a

def Keyword.value : Keyword → Expr
  | .mk _ v => v

mutual
/-- constant_to_string from src/visitor.rs: render a constant to text.
Booleans use Rust `bool::to_string` (lowercase), strings are the raw text,
bytes get a b"..." wrapper, tuples are comma-joined and parenthesized. -/
def constant_to_string : Const → String
  | .none => "None"
  | .bool b => if b then "true" else "false"
  | .str s => s
  | .bytes s => "b\"" ++ s ++ "\""
  | .int i => toString i
  | .float r => r
  | .ellipsis => "..."
  | .tuple items => "(" ++ constant_join items ++ ")"

/-- Comma-join of rendered tuple items (the intercalate of the source). -/
def constant_join : List Const → String
  | [] => ""
  | [c] => constant_to_string c
  | c :: rest => constant_to_string c ++ ", " ++ constant_join rest
end

/-- operator_to_string from src/visitor.rs. -/
def operator_to_string : Operator → String
  | .add => "+"
  | .sub => "-"
  | .mult => "*"
  | .matMult => "@"
  | .div => "/"
  | .mod => "%"
  | .pow => "**"
  | .lshift => "<<"
  | .rshift => ">>"
  | .bitOr => "|"
  | .bitXor => "^"
  | .bitAnd => "&"
  | .floorDiv => "//"

/-- A named `.format()` argument, as in src/parse_format.rs (struct NamedArg). -/
structure NamedArg where
  key : String
  value : Const

/-- The keyword-scanning loop of get_args_and_keywords (src/parse_format.rs):
constant-valued named keywords become NamedArgs, constant-valued unnamed
keywords and name-valued keywords are pushed onto the plain argument list,
anything else bails. -/
def keywords_loop : List Keyword → Option (List String × List NamedArg)
  | [] => some ([], [])
  | .mk arg v :: rest =>
      match v.node with
      | .constant c =>
          match keywords_loop rest with
          | Option.none => Option.none
          | some (fa, na) =>
              match arg with
              | some a => some (fa, ⟨a, c⟩ :: na)
              | Option.none => some (constant_to_string c :: fa, na)
      | .name id =>
          match keywords_loop rest with
          | Option.none => Option.none
          | some (fa, na) => some (id :: fa, na)
      | _ => Option.none

/-- Rendering of a named argument as `key=value`, shared by the two call
branches of parse_formatted_value. -/
def named_arg_text (a : NamedArg) : String :=
  a.key ++ "=" ++ constant_to_string a.value

mutual
/-- parse_formatted_value from src/parse_fstring.rs: render one expression to
the text it should have as a standalone logging argument.  `pfix` is the
attribute-chain suffix accumulated so far (named `postfix` in the source);
failure (`none`) models the bail! paths. -/
def parse_formatted_value : Expr → String → Bool → Char → Option String
  | .mk (.name id) _ _, pfix, _, _ =>
      if pfix = "" then some id else some (id ++ "." ++ pfix)
  | .mk (.attribute v attr) _ _, pfix, _, quote =>
      if pfix = "" then parse_formatted_value v attr false quote
      else parse_formatted_value v (attr ++ "." ++ pfix) false quote
  | .mk (.constant c) _ _, _, in_call, quote =>
      if in_call then
        some (String.singleton quote ++ constant_to_string c ++ String.singleton quote)
      else some (constant_to_string c)
  | .mk (.call (.mk (.name id) _ _) call_args keywords) _ _, _, _, quote =>
      (get_args_and_keywords call_args keywords quote).bind fun p =>
        let cdna := String.intercalate ", " (p.2.map named_arg_text)
        if ¬ p.1.isEmpty ∧ ¬ cdna.isEmpty then
          some (id ++ "(" ++ String.intercalate ", " p.1 ++ ", " ++ cdna ++ ")")
        else
          some (id ++ "(" ++ String.intercalate ", " p.1 ++ cdna ++ ")")
  | .mk (.call (.mk (.attribute v attr) _ _) call_args keywords) _ _, pfix, _, quote =>
      (get_args_and_keywords call_args keywords quote).bind fun p =>
        (parse_formatted_value v pfix true quote).map fun recv =>
          recv ++ "." ++ attr ++
            ("(" ++ String.intercalate ", " (p.1 ++ p.2.map named_arg_text) ++ ")")
  | .mk (.call _ call_args keywords) _ _, _, _, quote =>
      (get_args_and_keywords call_args keywords quote).bind fun _ => Option.none
  | .mk (.binOp left op right) _ _, pfix, _, quote =>
      (parse_formatted_value left pfix false quote).bind fun l =>
        (parse_formatted_value right pfix false quote).map fun r =>
          l ++ " " ++ operator_to_string op ++ " " ++ r
  | .mk (.subscript v slice) _ _, pfix, _, quote =>
      (parse_formatted_value v pfix false quote).bind fun base =>
        (parse_formatted_value slice pfix false quote).map fun key =>
          base ++ "[" ++ String.singleton quote ++ key ++ String.singleton quote ++ "]"
  | .mk (.listComp elt generators) _ _, pfix, _, quote =>
      (parse_formatted_value elt pfix true quote).bind fun e =>
        (parse_generators generators pfix quote ("[" ++ e)).map fun s => s ++ "]"
  | .mk (.generatorExp elt generators) _ _, pfix, _, quote =>
      (parse_formatted_value elt pfix true quote).bind fun e =>
        (parse_generators generators pfix quote ("[" ++ e)).map fun s => s ++ "]"
  | .mk (.dictComp key v generators) _ _, pfix, _, quote =>
      (parse_formatted_value key pfix true quote).bind fun k =>
        (parse_formatted_value v pfix true quote).bind fun val =>
          (parse_generators generators pfix quote
            ("\x7b" ++ k ++ ": " ++ val)).map fun s => s ++ "\x7d"
  | .mk (.joinedStr _) _ _, _, _, _ => Option.none
  | .mk (.formattedValue _) _ _, _, _, _ => Option.none
  | .mk (.boolOp _) _ _, _, _, _ => Option.none
termination_by value _ _ _ => (sizeOf value, 0)

/-- The `for arg in args` loop of get_args_and_keywords: resolve each
positional argument via parse_formatted_value. -/
def parse_args_loop : List Expr → Char → Option (List String)
  | [], _ => some []
  | a :: rest, quote =>
      (parse_formatted_value a "" false quote).bind fun s =>
        (parse_args_loop rest quote).map fun l => s :: l
termination_by args _ => (sizeOf args, 0)

/-- get_args_and_keywords from src/parse_format.rs (with the quote parameter
threaded through as in src/parse_fstring.rs): collect plain and named
arguments of a call. -/
def get_args_and_keywords (args : List Expr) (keywords : List Keyword)
    (quote : Char) : Option (List String × List NamedArg) :=
  (keywords_loop keywords).bind fun kp =>
    (parse_args_loop args quote).map fun parsed => (kp.1 ++ parsed, kp.2)
termination_by (sizeOf args, 1)

/-- The `for generator in generators` loop of the comprehension branches of
parse_formatted_value, accumulating onto `s`. -/
def parse_generators : List Comprehension → String → Char → String → Option String
  | [], _, _, s => some s
  | .mk target iter :: rest, pfix, quote, s =>
      (parse_formatted_value target pfix true quote).bind fun t =>
        (parse_formatted_value iter pfix true quote).bind fun i =>
          parse_generators rest pfix quote (s ++ " for " ++ t ++ " in " ++ i)
termination_by generators _ _ _ => (sizeOf generators, 0)
end

/-- parse_fstring from src/parse_fstring.rs: handle one element of a
JoinedStr, extending the accumulated template string and argument list.
Constants are appended verbatim; a FormattedValue becomes a %s plus one
resolved argument; anything else bails. -/
def parse_fstring (value : Expr) (string : String) (args : List String)
    (quote : Char) : Option (String × List String) :=
  match value.node with
  | .constant c => some (string ++ constant_to_string c, args)
  | .formattedValue v =>
      match parse_formatted_value v "" false quote with
      | Option.none => Option.none
      | some t => some (string ++ "%s", args ++ [t])
  | _ => Option.none

/-- The loop of fix_fstring over the JoinedStr values. -/
def fix_fstring_go (values : List Expr) (string : String) (args : List String)
    (quote : Char) : Option (String × List String) :=
  match values with
  | [] => some (string, args)
  | v :: rest =>
      match parse_fstring v string args quote with
      | Option.none => Option.none
      | some (s, a) => fix_fstring_go rest s a quote

/-- fix_fstring from src/parse_fstring.rs: build template and arguments from
the values of an f-string; any element failing to parse makes the whole call
produce nothing. -/
def fix_fstring (values : List Expr) (quote : Char) : Option (String × List String) :=
  fix_fstring_go values "" [] quote

/-!
Models of the three regular expressions of src/parse_format.rs, as explicit
character scanners with the same match semantics (leftmost, non-overlapping,
lazy dot for the first one):

* FORMATTED_VALUE_REGEX             (brace, lazy dot, brace) — count only
* FORMATTED_VALUE_GROUP_REGEX       (brace, name without brace/colon, optional
                                     colon-spec without brace, brace), group 1
                                     is the name
* the any-curly regex of order_arguments (brace, any chars without brace,
  optional colon part, brace) — equivalent to a brace pair with no nested
  brace.

Positions are character offsets (byte offsets in the Rust code; identical on
the ASCII inputs considered).
-/

/-- State machine counting matches of FORMATTED_VALUE_REGEX: the Bool records
whether we are inside a candidate match (an open brace has been seen and
neither a closing brace nor a newline since); `.` does not match a newline. -/
def count_fv_aux : Bool → List Char → Nat
  | _, [] => 0
  | true, c :: rest =>
      if c = '}' then 1 + count_fv_aux false rest
      else if c = '\n' then count_fv_aux false rest
      else count_fv_aux true rest
  | false, c :: rest =>
      if c = '{' then count_fv_aux true rest
      else count_fv_aux false rest

/-- Number of FORMATTED_VALUE_REGEX matches in a string
(`find_iter(...).count()` in fix_format_call). -/
def count_formatted_values (s : String) : Nat :=
  count_fv_aux false s.data

/-- Attempt a FORMATTED_VALUE_GROUP_REGEX match directly after an opening
brace: returns (group-1 name, length of the whole match including both
braces, rest of the input after the match). -/
def parse_group_at (l : List Char) : Option (List Char × Nat × List Char) :=
  let name := l.takeWhile (fun c => ¬ (c = '{' ∨ c = '}' ∨ c = ':'))
  let r1 := l.dropWhile (fun c => ¬ (c = '{' ∨ c = '}' ∨ c = ':'))
  match r1 with
  | '}' :: r2 => some (name, name.length + 2, r2)
  | ':' :: r3 =>
      let spec := r3.takeWhile (fun c => ¬ (c = '{' ∨ c = '}'))
      let r4 := r3.dropWhile (fun c => ¬ (c = '{' ∨ c = '}'))
      match r4 with
      | '}' :: r5 => some (name, name.length + 1 + spec.length + 2, r5)
      | _ => Option.none
  | _ => Option.none

/-- All FORMATTED_VALUE_GROUP_REGEX matches of a string, left to right and
non-overlapping, as (start, end, group-1 name) with half-open positions.
The fuel argument only bounds the recursion; it is always at least the
number of characters left, and every step consumes at least one. -/
def group_scan_go : Nat → List Char → Nat → List (Nat × Nat × List Char)
  | 0, _, _ => []
  | _ + 1, [], _ => []
  | fuel + 1, c :: rest, pos =>
      if c = '{' then
        match parse_group_at rest with
        | some (name, len, rest2) =>
            (pos, pos + len, name) :: group_scan_go fuel rest2 (pos + len)
        | Option.none => group_scan_go fuel rest (pos + 1)
      else group_scan_go fuel rest (pos + 1)

def group_scan (s : String) : List (Nat × Nat × List Char) :=
  group_scan_go (s.data.length + 1) s.data 0

/-- get_named_arg_indexes from src/parse_format.rs: the enumeration indices
(among all group-regex matches of the string) whose group-1 name equals the
key. -/
def get_named_arg_indexes (string : String) (key : String) : List Nat :=
  ((group_scan string).enum.filterMap
    (fun m => if m.2.2.2 = key.data then some m.1 else Option.none))

/-- get_named_arg_index_start_end from src/parse_format.rs: start/end of the
first group-regex match whose group-1 name equals the key; none models the
bail! when no such capture exists. -/
def get_named_arg_index_start_end (string : String) (key : String) :
    Option (Nat × Nat) :=
  match (group_scan string).find? (fun m => m.2.2 = key.data) with
  | some m => some (m.1, m.2.1)
  | Option.none => Option.none

/-- First match of the any-curly regex of order_arguments: the leftmost brace
pair containing no nested brace, as (start, end). -/
def any_curly_find_go : Nat → List Char → Nat → Option (Nat × Nat)
  | 0, _, _ => Option.none
  | _ + 1, [], _ => Option.none
  | fuel + 1, c :: rest, pos =>
      if c = '{' then
        let content := rest.takeWhile (fun d => ¬ (d = '{' ∨ d = '}'))
        let r1 := rest.dropWhile (fun d => ¬ (d = '{' ∨ d = '}'))
        match r1 with
        | '}' :: _ => some (pos, pos + content.length + 2)
        | _ => any_curly_find_go fuel rest (pos + 1)
      else any_curly_find_go fuel rest (pos + 1)

def any_curly_find (s : String) : Option (Nat × Nat) :=
  any_curly_find_go (s.data.length + 1) s.data 0

/-- Rust `String::replace_range(start..stop, repl)`, at character offsets. -/
def string_replace_range (s : String) (start stop : Nat) (repl : String) : String :=
  ⟨s.data.take start ++ repl.data ++ s.data.drop stop⟩

/-- Rust `String::replace_range(start.., repl)`, at character offsets. -/
def string_replace_from (s : String) (start : Nat) (repl : String) : String :=
  ⟨s.data.take start ++ repl.data⟩

/-- Outcome of a Rust computation that can either bail (recoverable
`Result::Err`) or panic (process abort), carrying the panic message. -/
inductive RustResult (α : Type) where
  | panicked (msg : String)
  | err
  | ok (a : α)
deriving Repr, DecidableEq

/-- The `for index in indexes` loop of order_keyword_arguments: for each
recorded occurrence index of the key, look up the first remaining occurrence
of the key in the partially rewritten string, store the value at that index,
and replace the occurrence with %s.  A missing occurrence models the bail!
of get_named_arg_index_start_end; an out-of-range index models the Rust
index panic. -/
def process_indexes (key : String) (str_value : String) :
    List Nat → String → List (Option String) →
    RustResult (String × List (Option String))
  | [], new_string, ordered => .ok (new_string, ordered)
  | index :: rest, new_string, ordered =>
      match get_named_arg_index_start_end new_string key with
      | Option.none => .err
      | some (start, stop) =>
          if index < ordered.length then
            process_indexes key str_value rest
              (string_replace_range new_string start stop "%s")
              (ordered.set index (some str_value))
          else .panicked "index out of bounds"

/-- order_keyword_arguments from src/parse_format.rs: resolve every named
argument (each may occupy several occurrence indices, computed against the
original string) into the ordered-arguments vector, rewriting the new string
as it goes. -/
def order_keyword_arguments (string : String) :
    String → List NamedArg → List (Option String) →
    RustResult (String × List (Option String))
  | new_string, [], ordered => .ok (new_string, ordered)
  | new_string, keyword_arg :: rest, ordered =>
      let indexes := get_named_arg_indexes string keyword_arg.key
      let str_value := constant_to_string keyword_arg.value
      match process_indexes keyword_arg.key str_value indexes new_string ordered with
      | .panicked m => .panicked m
      | .err => .err
      | .ok (ns, oa) => order_keyword_arguments string ns rest oa

/-- order_arguments from src/parse_format.rs: each positional argument
replaces the next remaining curly-brace occurrence with %s and fills the
first still-empty slot of the ordered-arguments vector.  No remaining
occurrence is the excess-argument panic; no empty slot is the
`Option::unwrap` panic. -/
def order_arguments : String → List String → List (Option String) →
    RustResult (String × List (Option String))
  | new_string, [], ordered => .ok (new_string, ordered)
  | new_string, arg :: rest, ordered =>
      match any_curly_find new_string with
      | Option.none =>
          .panicked ("Found excess argument `" ++ arg ++
            "` in logger. Run with RUST_LOG=debug for verbose logging.")
      | some (start, stop) =>
          let ns := string_replace_range new_string start stop "%s"
          match ordered.findIdx? (fun o => o.isNone) with
          | Option.none => .panicked "called `Option::unwrap()` on a `None` value"
          | some i => order_arguments ns rest (ordered.set i (some arg))

/-- order from src/parse_format.rs: keyword arguments are handled first, then
positional arguments. -/
def order (string new_string : String) (f_args : List String)
    (f_named_args : List NamedArg) (ordered : List (Option String)) :
    RustResult (String × List (Option String)) :=
  match order_keyword_arguments string new_string f_named_args ordered with
  | .panicked m => .panicked m
  | .err => .err
  | .ok (ns, oa) => order_arguments ns f_args oa

/-- fix_format_call from src/parse_format.rs: collect arguments, size the
ordered-arguments vector by the number of brace occurrences of the template
string, run `order`, and unwrap every slot (an unfilled slot is the
`Option::unwrap` panic of the final map). -/
def fix_format_call (func : Expr) (args : List Expr) (keywords : List Keyword)
    (quote : Char) : RustResult (String × List String) :=
  match get_args_and_keywords args keywords quote with
  | Option.none => .err
  | some (f_args, f_named_args) =>
    let string :=
      match func.node with
      | .attribute v _ =>
          match v.node with
          | .constant (.str s) => s
          | _ => ""
      | _ => ""
    let new_string := string
    let ordered : List (Option String) :=
      List.replicate (count_formatted_values string) Option.none
    match order string new_string f_args f_named_args ordered with
    | .panicked m => .panicked m
    | .err => .err
    | .ok (ns, oa) =>
        if oa.all (fun o => o.isSome) then .ok (ns, oa.filterMap id)
        else .panicked "called `Option::unwrap()` on a `None` value"

/-- Severity levels, in declaration order, as in src/cli.rs (the derived
PartialOrd/Ord compare by declaration order). -/
inductive LogLevel where
  | Debug | Info | Warning | Error | Exception | Critical
deriving Repr, DecidableEq

/-- Declaration-order rank used for the derived Ord comparison. -/
def LogLevel.rank : LogLevel → Nat
  | .Debug => 0
  | .Info => 1
  | .Warning => 2
  | .Error => 3
  | .Exception => 4
  | .Critical => 5

/-- LogLevel::maybe_from_str from src/cli.rs. -/
def LogLevel.maybe_from_str (s : String) : Option LogLevel :=
  if s = "debug" then some .Debug
  else if s = "info" then some .Info
  else if s = "warn" ∨ s = "warning" then some .Warning
  else if s = "error" then some .Error
  else if s = "exception" then some .Exception
  else if s = "critical" then some .Critical
  else Option.none

/-- get_char from src/cli.rs: read the character at the column; quote
characters are accepted directly, an f-string prefix shifts one further,
anything else fails (the `.nth(col+1).unwrap()` panic on a trailing `f` is
modelled as a failure as well). -/
def get_char (string : String) (col_offset : Nat) : Option Char :=
  match string.data.get? col_offset with
  | some c =>
      if c = '\'' then some '\''
      else if c = '"' then some '"'
      else if c = 'f' then string.data.get? (col_offset + 1)
      else Option.none
  | Option.none => Option.none

/-- Rust `str::split` at newline characters, accumulating the current line
in reverse (`content.split('\n')` of the sources). -/
def split_newlines_go : List Char → List Char → List String
  | [], acc => [⟨acc.reverse⟩]
  | c :: rest, acc =>
      if c = '\n' then ⟨acc.reverse⟩ :: split_newlines_go rest []
      else split_newlines_go rest (c :: acc)

def split_lines (s : String) : List String := split_newlines_go s.data []

/-- Rust `str::ends_with(',')`: the last character is a comma. -/
def ends_with_comma (s : String) : Bool := s.data.getLast? == some ','

/-- get_quotes from src/cli.rs: infer the quote character for the literal
starting at the given 1-indexed row and 0-indexed column of the file
content. -/
def get_quotes (content : String) (lineno : Nat) (col_offset : Nat) : Option Char :=
  get_char ((split_lines content).getD (lineno - 1) "") col_offset

/-- Receiver names explicitly known not to be loggers (src/visitor.rs). -/
def BLACKLISTED_NAMES : List String := ["warnings", "messages"]

/-- The process-wide settings relevant to the visitor. -/
structure Settings where
  log_level : LogLevel

/-- A pending edit, as in struct Change of src/fix_file.rs / src/main.rs
(rows 1-indexed, columns 0-indexed, end column exclusive). -/
structure Change where
  lineno : Nat
  col_offset : Nat
  end_lineno : Nat
  end_col_offset : Nat
  new_string_content : String
  new_string_variables : List String
  quote : Char
deriving Repr, DecidableEq

/-- capture_changes from src/visitor.rs: infer the quote character at the
expression's start (skip on failure), run the conversion, and record a
Change on the expression's span unless the produced template is empty. -/
def capture_changes (content : String) (expr : Expr)
    (conversion : Char → RustResult (String × List String)) :
    RustResult (List Change) :=
  match get_quotes content expr.location.row expr.location.col with
  | Option.none => .ok []
  | some quote =>
    match conversion quote with
    | .panicked m => .panicked m
    | .err => .ok []
    | .ok (t, vars) =>
        if ¬ t.isEmpty then
          .ok [⟨expr.location.row, expr.location.col, expr.end_location.row,
            expr.end_location.col, t, vars, quote⟩]
        else .ok []

/-- handle_joinedstr from src/visitor.rs, via capture_changes: the f-string
conversion (fix_fstring) bails recoverably, never panics. -/
def handle_joinedstr (content : String) (expr : Expr) (values : List Expr) :
    RustResult (List Change) :=
  capture_changes content expr (fun q =>
    match fix_fstring values q with
    | some p => .ok p
    | Option.none => .err)

/-- The `for expr in args` loop of the JoinedStr branch of handle_call: every
JoinedStr argument is captured, each against the values of the first
argument. -/
def joined_args_loop (content : String) (values : List Expr) :
    List Expr → RustResult (List Change)
  | [] => .ok []
  | e :: rest =>
      match (match e.node with
             | .joinedStr _ => handle_joinedstr content e values
             | _ => .ok []) with
      | .panicked m => .panicked m
      | .err => .err
      | .ok cs =>
          match joined_args_loop content values rest with
          | .panicked m => .panicked m
          | .err => .err
          | .ok cs2 => .ok (cs ++ cs2)

/-- handle_str_format_call from src/visitor.rs: capture a Change on the span
of the first argument; a bail of fix_format_call is dropped
(`.ok().flatten()`), a panic aborts the run. -/
def handle_str_format_call (content : String) (first_value : Expr)
    (func : Expr) (args : List Expr) (keywords : List Keyword) :
    RustResult (List Change) :=
  capture_changes content first_value (fun q => fix_format_call func args keywords q)

/-- handle_call from src/visitor.rs: the expression classifier.  The call
must be an attribute call whose name is a known severity at or above the
threshold, with a non-block-listed receiver, and whose first argument is an
f-string or a `.format()` call. -/
def handle_call (st : Settings) (content : String) (func : Expr)
    (args : List Expr) : RustResult (List Change) :=
  match func.node with
  | .attribute value call_attr =>
      match LogLevel.maybe_from_str call_attr with
      | Option.none => .ok []
      | some log_level =>
          if st.log_level.rank > log_level.rank then .ok []
          else if (match value.node with
                   | .name id => BLACKLISTED_NAMES.contains id
                   | _ => false) then .ok []
          else
            match args.head? with
            | Option.none => .ok []
            | some first_value =>
                match first_value.node with
                | .joinedStr values => joined_args_loop content values args
                | .call func2 args2 keywords2 =>
                    match func2.node with
                    | .attribute _ attr =>
                        if attr = "format" then
                          handle_str_format_call content first_value func2 args2 keywords2
                        else .ok []
                    | _ => .ok []
                | _ => .ok []
  | _ => .ok []

mutual
/-- visit_expr of LoggerVisitor (src/visitor.rs): dispatch calls to
handle_call, recurse through the operands of boolean operators, and ignore
every other expression kind.  The accumulated change list corresponds to
`self.changes`; a panic of the format engine aborts the whole run. -/
def visit_expr (st : Settings) (content : String) : Expr → RustResult (List Change)
  | .mk (.call func args _) _ _ => handle_call st content func args
  | .mk (.boolOp values) _ _ => visit_expr_list st content values
  | _ => .ok []
termination_by e => sizeOf e

/-- The `for expr in values` loop of the BoolOp branch of visit_expr. -/
def visit_expr_list (st : Settings) (content : String) :
    List Expr → RustResult (List Change)
  | [] => .ok []
  | e :: rest =>
      match visit_expr st content e with
      | .panicked m => .panicked m
      | .err => .err
      | .ok cs =>
          match visit_expr_list st content rest with
          | .panicked m => .panicked m
          | .err => .err
          | .ok cs2 => .ok (cs ++ cs2)
termination_by l => sizeOf l
end

/-!  The splice engine (change_content from src/fix_file.rs). -/

/-- The replacement text of a Change:
`<quote><template><quote>, <comma-joined arguments>` (the format! of
change_content). -/
def new_logger (change : Change) : String :=
  String.singleton change.quote ++ change.new_string_content ++
    String.singleton change.quote ++ ", " ++
    String.intercalate ", " change.new_string_variables

/-- One iteration of the `for change in &changes` loop of change_content,
acting on the current line array and the count of rows removed so far. -/
def change_content_step (acc : List String × Nat) (change : Change) :
    List String × Nat :=
  let vec := acc.1
  let popped_rows := acc.2
  if change.lineno = change.end_lineno then
    (vec.set (change.lineno - 1 - popped_rows)
      (string_replace_range (vec.getD (change.lineno - 1 - popped_rows) "")
        change.col_offset change.end_col_offset (new_logger change)),
     popped_rows)
  else
    let rstart := change.lineno - popped_rows
    let rstop := change.end_lineno - popped_rows
    let removed_lines := (vec.drop rstart).take (rstop - rstart)
    let nl :=
      match removed_lines.getLast? with
      | some last_item =>
          if ends_with_comma last_item then new_logger change ++ "," else new_logger change
      | Option.none => new_logger change
    let vec2 := vec.take rstart ++ vec.drop rstop
    (vec2.set (change.lineno - 1 - popped_rows)
      (string_replace_from (vec2.getD (change.lineno - 1 - popped_rows) "")
        change.col_offset nl),
     popped_rows + (change.end_lineno - change.lineno))

/-- change_content from src/fix_file.rs: split the content into lines, apply
every change in order, and report whether the change list was non-empty. -/
def change_content (content : String) (changes : List Change) :
    List String × Bool :=
  ((changes.foldl change_content_step (split_lines content, 0)).1,
   !changes.isEmpty)

/-!  Counting %s occurrences (for the placeholder-count invariant). -/

/-- Number of non-overlapping occurrences of the two-character pattern %s in
a character list, scanning left to right. -/
def count_ps : List Char → Nat
  | [] => 0
  | [_] => 0
  | a :: b :: rest =>
      if a = '%' ∧ b = 's' then count_ps rest + 1 else count_ps (b :: rest)

/-- Number of %s occurrences in a string. -/
def count_percent_s (s : String) : Nat := count_ps s.data

/-!  Builders for concrete instances. -/

def loc0 : Loc := ⟨1, 0⟩

def const_str_expr (s : String) : Expr := .mk (.constant (.str s)) loc0 loc0

def const_int_expr (i : Int) : Expr := .mk (.constant (.int i)) loc0 loc0

/-- The `"template".format` attribute expression of a str.format call. -/
def format_func_expr (s : String) : Expr :=
  .mk (.attribute (const_str_expr s) "format") loc0 loc0

/-- An expression whose literal (constant) rendering, if any, contains no
percent character. -/
def literal_percent_free (e : Expr) : Prop :=
  ∀ c, e.node = ExprKind.constant c → '%' ∉ (constant_to_string c).data

/-- An f-string slot holding a bare variable reference. -/
def fval_name_expr (id : String) : Expr :=
  .mk (.formattedValue (.mk (.name id) loc0 loc0)) loc0 loc0

/-- The expression `"\x7b\x7d".format(1, 2)` at columns 13..29 of row 1
(the spans of `logger.error('\x7b\x7d'.format(1,2))`). -/
def excess_format_call : Expr :=
  .mk (.call (format_func_expr "\x7b\x7d") [const_int_expr 1, const_int_expr 2] [])
    ⟨1, 13⟩ ⟨1, 29⟩

/-- The call `logger.error("\x7b\x7d".format(1, 2))`. -/
def excess_logger_call : Expr :=
  .mk (.call (.mk (.attribute (.mk (.name "logger") loc0 loc0) "error") loc0 loc0)
    [excess_format_call] []) ⟨1, 0⟩ ⟨1, 30⟩

/-- The f-string `f"\x7bx\x7d"` at columns 13..19 of row 1 (its span inside
`logger.error(f"\x7bx\x7d")`). -/
def inner_fstring : Expr :=
  .mk (.joinedStr [fval_name_expr "x"]) ⟨1, 13⟩ ⟨1, 19⟩

/-- The qualifying call `logger.error(f"\x7bx\x7d")`. -/
def inner_logger_call : Expr :=
  .mk (.call (.mk (.attribute (.mk (.name "logger") loc0 loc0) "error") loc0 loc0)
    [inner_fstring] []) ⟨1, 0⟩ ⟨1, 20⟩

/-- A below-threshold call carrying the qualifying call in its argument
list: `logger.debug(logger.error(f"\x7bx\x7d"))`. -/
def outer_debug_call : Expr :=
  .mk (.call (.mk (.attribute (.mk (.name "logger") loc0 loc0) "debug") loc0 loc0)
    [inner_logger_call] []) ⟨1, 0⟩ ⟨1, 33⟩

theorem count_ps_cons_ne (x : Char) (l : List Char) (hx : x ≠ '%') :
    count_ps (x :: l) = count_ps l := by
  cases l with
  | nil => rfl
  | cons b r => simp [count_ps, hx]

theorem count_ps_eq_zero (l : List Char) (h : '%' ∉ l) : count_ps l = 0 := by
  induction l with
  | nil => rfl
  | cons a t ih =>
      have ha : a ≠ '%' := fun hc => h (hc ▸ List.mem_cons_self a t)
      rw [count_ps_cons_ne a t ha]
      exact ih (fun hm => h (List.mem_cons_of_mem a hm))

/-- Appending a %-free suffix to a list not ending in % does not change the
%s count. -/
theorem count_ps_append_of_percent_free (l2 : List Char) (h2 : '%' ∉ l2) :
    ∀ n l1, l1.length ≤ n → l1.getLast? ≠ some '%' →
      count_ps (l1 ++ l2) = count_ps l1 := by
  intro n
  induction n with
  | zero =>
      intro l1 hl _
      have : l1 = [] := List.length_eq_zero.mp (Nat.le_zero.mp hl)
      subst this
      simpa [count_ps] using count_ps_eq_zero l2 h2
  | succ n ih =>
      intro l1 hl h1
      rcases l1 with _ | ⟨a, _ | ⟨b, r⟩⟩
      · simpa [count_ps] using count_ps_eq_zero l2 h2
      · have ha : a ≠ '%' := by
          simp only [List.getLast?_singleton] at h1
          exact fun hc => h1 (by rw [hc])
        rw [List.singleton_append, count_ps_cons_ne a l2 ha,
          count_ps_eq_zero l2 h2]
        rfl
      · by_cases hab : a = '%' ∧ b = 's'
        · have hr : count_ps (r ++ l2) = count_ps r := by
            apply ih r
            · simp only [List.length_cons] at hl ⊢
              omega
            · cases r with
              | nil => simp
              | cons x xs =>
                  rw [← List.getLast?_cons_cons, ← List.getLast?_cons_cons]
                  exact h1
          simp [count_ps, hab, hr]
        · have hbr : count_ps ((b :: r) ++ l2) = count_ps (b :: r) := by
            apply ih (b :: r)
            · simp only [List.length_cons] at hl ⊢
              omega
            · rw [← List.getLast?_cons_cons]
              exact h1
          simpa [count_ps, hab] using hbr

/-- Appending the two characters of %s increments the %s count by one. -/
theorem count_ps_append_ps :
    ∀ n l, l.length ≤ n → count_ps (l ++ ['%', 's']) = count_ps l + 1 := by
  intro n
  induction n with
  | zero =>
      intro l hl
      have : l = [] := List.length_eq_zero.mp (Nat.le_zero.mp hl)
      subst this
      rfl
  | succ n ih =>
      intro l hl
      rcases l with _ | ⟨a, _ | ⟨b, r⟩⟩
      · rfl
      · simp [count_ps]
      · by_cases hab : a = '%' ∧ b = 's'
        · have hr := ih r (by simpa using Nat.le_of_succ_le_succ (Nat.le_of_succ_le hl))
          simp [count_ps, hab, hr]
        · have hbr := ih (b :: r) (by simp only [List.length_cons] at hl ⊢; omega)
          simpa [count_ps, hab] using hbr

/-- Invariant of the fix_fstring loop: when every literal segment is free of
percent characters, the %s count of the accumulated template tracks the
length of the accumulated argument list (and the template never ends in a
lone percent character). -/
theorem fix_fstring_go_count (quote : Char) :
    ∀ (values : List Expr) (s : String) (args : List String),
      (∀ e ∈ values, literal_percent_free e) →
      count_ps s.data = args.length →
      s.data.getLast? ≠ some '%' →
      ∀ t out, fix_fstring_go values s args quote = some (t, out) →
        count_ps t.data = out.length := by
  intro values
  induction values with
  | nil =>
      intro s args _ hc _ t out hfix
      simp only [fix_fstring_go, Option.some.injEq, Prod.mk.injEq] at hfix
      obtain ⟨h1, h2⟩ := hfix
      subst h1; subst h2
      exact hc
  | cons v rest ih =>
      intro s args hfree hc hlast t out hfix
      rw [fix_fstring_go] at hfix
      rcases v with ⟨node, lv, le⟩
      have hfree_rest : ∀ e ∈ rest, literal_percent_free e :=
        fun e he => hfree e (List.mem_cons_of_mem _ he)
      cases node
      case constant c =>
        simp only [parse_fstring, Expr.node] at hfix
        have hseg : '%' ∉ (constant_to_string c).data :=
          hfree ⟨.constant c, lv, le⟩ (List.mem_cons_self _ _) c rfl
        have hdata : (s ++ constant_to_string c).data =
            s.data ++ (constant_to_string c).data := String.data_append _ _
        apply ih (s ++ constant_to_string c) args hfree_rest ?_ ?_ t out hfix
        · rw [hdata,
            count_ps_append_of_percent_free _ hseg s.data.length s.data le_rfl hlast]
          exact hc
        · rw [hdata]
          by_cases hnil : (constant_to_string c).data = []
          · rw [hnil, List.append_nil]; exact hlast
          · rw [List.getLast?_append_of_ne_nil _ hnil]
            intro hcontra
            obtain ⟨hne, hx⟩ := List.mem_getLast?_eq_getLast
              (l := (constant_to_string c).data) (x := '%') (Option.mem_def.mpr hcontra)
            exact hseg (hx ▸ List.getLast_mem hne)
      case formattedValue fv =>
        simp only [parse_fstring, Expr.node] at hfix
        cases hp : parse_formatted_value fv "" false quote with
        | none => rw [hp] at hfix; simp at hfix
        | some txt =>
            rw [hp] at hfix
            simp only [] at hfix
            apply ih (s ++ "%s") (args ++ [txt]) hfree_rest ?_ ?_ t out hfix
            · rw [String.data_append,
                show ("%s" : String).data = ['%', 's'] from rfl,
                count_ps_append_ps s.data.length s.data le_rfl, hc]
              simp
            · rw [String.data_append,
                show ("%s" : String).data = ['%', 's'] from rfl,
                List.getLast?_append_of_ne_nil _ (by simp)]
              decide
      all_goals simp [parse_fstring, Expr.node] at hfix

/-- C1 (amended): for every Change produced via the f-string template
builder from segments whose literal (constant) text contains no percent
character, the number of %s occurrences in the Change's new template equals
the length of the Change's argument list.  (Literal %s text in a segment —
or in a .format() template — makes the count exceed the argument count, so
the unconditional claim fails.) -/
theorem C1_fstring_placeholder_count (values : List Expr) (quote : Char)
    (hfree : ∀ e ∈ values, literal_percent_free e)
    (t : String) (args : List String)
    (hfix : fix_fstring values quote = some (t, args)) :
    count_percent_s t = args.length :=
  fix_fstring_go_count quote values "" [] hfree rfl (by decide) t args hfix

/-- C1 witness: the theorem applied to the f-string `f"foo \x7bbar\x7d"`. -/
theorem C1_fstring_placeholder_count_witness :
    count_percent_s "foo %s" = (["bar"] : List String).length := by
  apply C1_fstring_placeholder_count [const_str_expr "foo ", fval_name_expr "bar"]
    '\'' ?_ "foo %s" ["bar"] ?_
  · intro e he c hc
    rcases List.mem_cons.mp he with rfl | he
    · simp only [const_str_expr, Expr.node, ExprKind.constant.injEq] at hc
      subst hc
      decide
    · rcases List.mem_cons.mp he with rfl | he
      · simp [fval_name_expr, Expr.node] at hc
      · cases he
  · simp [fix_fstring, fix_fstring_go, parse_fstring, parse_formatted_value,
      const_str_expr, fval_name_expr, Expr.node, constant_to_string]

/-- C1 counterexample: an f-string whose trailing literal segment itself
contains %s (`f"foo \x7bbar\x7d " f"baz %s"`, from the repository's own test
suite) produces a template with two %s occurrences but only one argument,
refuting the unconditional placeholder-count invariant. -/
theorem C1_counterexample :
    fix_fstring [const_str_expr "foo ", fval_name_expr "bar",
        const_str_expr " baz %s"] '\'' = some ("foo %s baz %s", ["bar"]) ∧
    count_percent_s "foo %s baz %s" = 2 ∧
    (["bar"] : List String).length = 1 := by
  refine ⟨?_, by decide, by decide⟩
  simp [fix_fstring, fix_fstring_go, parse_fstring, parse_formatted_value,
    const_str_expr, fval_name_expr, Expr.node, constant_to_string]

/-- C2: in the .format() template builder, keyword arguments are resolved
into the output slots before positional arguments (`order` runs
order_keyword_arguments first and feeds its result to order_arguments), and
`"\x7bx\x7d + \x7b\x7d == \x7by\x7d".format(3, y=4, x=1)` yields the
template `"%s + %s == %s"` with ordered arguments `["1", "3", "4"]`. -/
theorem C2_format_argument_ordering :
    (∀ (string new_string : String) (f_args : List String)
        (f_named : List NamedArg) (ordered : List (Option String)),
        order string new_string f_args f_named ordered =
          match order_keyword_arguments string new_string f_named ordered with
          | .panicked m => .panicked m
          | .err => .err
          | .ok p => order_arguments p.1 f_args p.2) ∧
    fix_format_call (format_func_expr "\x7bx\x7d + \x7b\x7d == \x7by\x7d")
        [const_int_expr 3]
        [.mk (some "y") (const_int_expr 4), .mk (some "x") (const_int_expr 1)]
        '\'' = .ok ("%s + %s == %s", ["1", "3", "4"]) := by
  constructor
  · intro string new_string f_args f_named ordered
    rcases h : order_keyword_arguments string new_string f_named ordered with m | _ | ⟨ns, oa⟩ <;>
      simp [order, h]
  · simp only [fix_format_call, get_args_and_keywords, parse_args_loop,
      parse_formatted_value, keywords_loop, format_func_expr, const_str_expr,
      const_int_expr, Expr.node]
    decide

/-- C3: a .format() call with more positional arguments than template slots
panics (aborting the whole run) with a message naming the rendered excess
argument `2`, and the visitor propagates the panic, so no Change list — and
hence no rewrite — is produced for the file. -/
theorem C3_excess_argument_fails_hard :
    fix_format_call (format_func_expr "\x7b\x7d")
        [const_int_expr 1, const_int_expr 2] [] '\'' =
      .panicked "Found excess argument `2` in logger. Run with RUST_LOG=debug for verbose logging." ∧
    visit_expr ⟨.Error⟩ "logger.error(\x27\x7b\x7d\x27.format(1,2))" excess_logger_call =
      .panicked "Found excess argument `2` in logger. Run with RUST_LOG=debug for verbose logging." := by
  constructor
  · simp only [fix_format_call, get_args_and_keywords, parse_args_loop,
      parse_formatted_value, keywords_loop, format_func_expr, const_str_expr,
      const_int_expr, Expr.node]
    decide
  · simp only [visit_expr, handle_call, handle_str_format_call, capture_changes,
      excess_logger_call, excess_format_call, format_func_expr, const_str_expr,
      const_int_expr, Expr.node, Expr.location, Expr.end_location, List.head?,
      LogLevel.maybe_from_str, LogLevel.rank, BLACKLISTED_NAMES, get_quotes,
      get_char, split_lines, split_newlines_go,
      fix_format_call, get_args_and_keywords, parse_args_loop,
      parse_formatted_value, keywords_loop]
    try decide

/-- C6: a keyword referenced twice fills both occurrences —
`"\x7bx\x7d + \x7bx\x7d".format(x=5)` gives template `"%s + %s"` and
arguments `["5", "5"]`, whose length is the number of brace occurrences of
the template (2), not the number of distinct call arguments (1). -/
theorem C6_keyword_repetition :
    fix_format_call (format_func_expr "\x7bx\x7d + \x7bx\x7d") []
        [.mk (some "x") (const_int_expr 5)] '\'' = .ok ("%s + %s", ["5", "5"]) ∧
    (["5", "5"] : List String).length =
      count_formatted_values "\x7bx\x7d + \x7bx\x7d" ∧
    (["5", "5"] : List String).length ≠
      [Keyword.mk (some "x") (const_int_expr 5)].length := by
  refine ⟨?_, by decide, by decide⟩
  simp only [fix_format_call, get_args_and_keywords, parse_args_loop,
    parse_formatted_value, keywords_loop, format_func_expr, const_str_expr,
    const_int_expr, Expr.node]
  decide

/-- C10: the splice engine's boolean is `!changes.is_empty()` — true exactly
when the change list is non-empty, even when applying the changes leaves the
line array textually identical to the input (second conjunct: a change whose
replacement text equals the replaced text still reports true). -/
theorem C10_changed_iff_nonempty :
    (∀ (content : String) (changes : List Change),
        (change_content content changes).2 = !changes.isEmpty) ∧
    change_content "\x27hi\x27, 1" [⟨1, 0, 1, 7, "hi", ["1"], '\''⟩] =
      (["\x27hi\x27, 1"], true) :=
  ⟨fun _ _ => rfl, by decide⟩

/-- C7 (amended): for a single-row Change the splice engine replaces the
column range [start_col, end_col) with `<quote><template><quote>, ` followed
by the comma-joined arguments; with an empty argument list the emitted text
is `<quote><template><quote>, ` — a comma and a space still follow the
closing quote (the template is not emitted alone). -/
theorem C7_single_row_splice (vec : List String) (popped : Nat) (c : Change)
    (hrow : c.lineno = c.end_lineno) (hargs : c.new_string_variables = []) :
    change_content_step (vec, popped) c =
      (vec.set (c.lineno - 1 - popped)
        (string_replace_range (vec.getD (c.lineno - 1 - popped) "")
          c.col_offset c.end_col_offset
          (String.singleton c.quote ++ c.new_string_content ++
            String.singleton c.quote ++ ", ")), popped) := by
  have hnl : new_logger c = String.singleton c.quote ++ c.new_string_content ++
      String.singleton c.quote ++ ", " := by
    simp [new_logger, hargs, String.intercalate]
  simp [change_content_step, hrow, hnl]

/-- C7 witness: the theorem applied to `logger.error(f\x27hi\x27)` with the
argument-free change produced for it. -/
theorem C7_single_row_splice_witness :
    change_content_step (["logger.error(f\x27hi\x27)"], 0)
        ⟨1, 13, 1, 18, "hi", [], '\''⟩ =
      (["logger.error(f\x27hi\x27)"].set 0
        (string_replace_range "logger.error(f\x27hi\x27)" 13 18
          (String.singleton '\'' ++ "hi" ++ String.singleton '\'' ++ ", ")), 0) :=
  C7_single_row_splice ["logger.error(f\x27hi\x27)"] 0
    ⟨1, 13, 1, 18, "hi", [], '\''⟩ rfl rfl

/-- C7 counterexample: splicing the argument-free change for
`logger.error(f\x27hi\x27)` emits `\x27hi\x27, ` — a comma and space follow
the closing quote, instead of the template alone. -/
theorem C7_counterexample :
    (change_content "logger.error(f\x27hi\x27)"
        [⟨1, 13, 1, 18, "hi", [], '\''⟩]).1 = ["logger.error(\x27hi\x27, )"] ∧
    (change_content "logger.error(f\x27hi\x27)"
        [⟨1, 13, 1, 18, "hi", [], '\''⟩]).1 ≠ ["logger.error(\x27hi\x27)"] := by
  constructor <;> decide

/-- C8 (amended): the attribute-name-to-severity table is case-SENSITIVE —
a name maps to a level exactly when it is one of the lowercase spellings
debug, info, warn, warning, error, exception, critical — and any attribute
name outside the table (upper-case spellings included) is rejected with no
edit produced. -/
theorem C8_level_table_case_sensitive :
    (∀ s : String, (LogLevel.maybe_from_str s).isSome ↔
        s ∈ ["debug", "info", "warn", "warning", "error", "exception", "critical"]) ∧
    (∀ (st : Settings) (content : String) (v : Expr) (attr : String)
        (l1 l2 lv le : Loc) (args : List Expr) (kw : List Keyword),
        LogLevel.maybe_from_str attr = Option.none →
        visit_expr st content
          (.mk (.call (.mk (.attribute v attr) l1 l2) args kw) lv le) = .ok []) := by
  constructor
  · intro s
    unfold LogLevel.maybe_from_str
    split_ifs with h1 h2 h3 h4 h5 h6 <;> simp_all
    rcases h3 with rfl | rfl <;> simp
  · intro st content v attr l1 l2 lv le args kw hnone
    simp only [visit_expr]
    simp [handle_call, Expr.node, hnone]

/-- C8 witness: the theorem's rejection branch applied to the upper-case
attribute name ERROR. -/
theorem C8_level_table_witness :
    visit_expr ⟨.Error⟩ ""
      (.mk (.call (.mk (.attribute (.mk (.name "logger") loc0 loc0) "ERROR")
        loc0 loc0) [] []) loc0 loc0) = .ok [] :=
  C8_level_table_case_sensitive.2 ⟨.Error⟩ "" (.mk (.name "logger") loc0 loc0)
    "ERROR" loc0 loc0 loc0 loc0 [] [] (by decide)

/-- C8 counterexample: upper-case spellings of level names do NOT match the
table (the mapping is case-sensitive), contradicting the claim that an
upper-case spelling still matches. -/
theorem C8_counterexample :
    LogLevel.maybe_from_str "ERROR" = Option.none ∧
    LogLevel.maybe_from_str "WARNING" = Option.none ∧
    LogLevel.maybe_from_str "error" = some .Error := by
  refine ⟨by decide, by decide, by decide⟩

/-- C9 (amended): a call whose resolved severity is below the configured
threshold produces no Change; the visitor does not recurse into the call's
argument list at all (only boolean-operator operands and statement bodies
are traversed), so a qualifying call nested there is not found. -/
theorem C9_below_threshold_no_change (st : Settings) (content : String)
    (v : Expr) (attr : String) (lvl : LogLevel) (l1 l2 lv le : Loc)
    (args : List Expr) (kw : List Keyword)
    (hattr : LogLevel.maybe_from_str attr = some lvl)
    (hbelow : lvl.rank < st.log_level.rank) :
    visit_expr st content
      (.mk (.call (.mk (.attribute v attr) l1 l2) args kw) lv le) = .ok [] := by
  simp only [visit_expr]
  simp [handle_call, Expr.node, hattr, hbelow]

/-- C9 witness: the theorem applied to a `logger.debug` call under threshold
Error. -/
theorem C9_below_threshold_witness :
    visit_expr ⟨.Error⟩ ""
      (.mk (.call (.mk (.attribute (.mk (.name "logger") loc0 loc0) "debug")
        loc0 loc0) [] []) loc0 loc0) = .ok [] :=
  C9_below_threshold_no_change ⟨.Error⟩ "" (.mk (.name "logger") loc0 loc0)
    "debug" .Debug loc0 loc0 loc0 loc0 [] [] (by decide) (by decide)

/-- C9 counterexample: with threshold Error, visiting
`logger.debug(logger.error(f"\x7bx\x7d"))` produces no Change at all, even
though the nested `logger.error(f"\x7bx\x7d")` is qualifying (visiting it
directly yields a Change) — the rejected call's arguments are not
traversed. -/
theorem C9_counterexample :
    visit_expr ⟨.Error⟩ "logger.error(f\x27\x7bx\x7d\x27)" outer_debug_call = .ok [] ∧
    visit_expr ⟨.Error⟩ "logger.error(f\x27\x7bx\x7d\x27)" inner_logger_call =
      .ok [⟨1, 13, 1, 19, "%s", ["x"], '\''⟩] := by
  constructor
  · simp only [visit_expr, handle_call, outer_debug_call, inner_logger_call,
      inner_fstring, fval_name_expr, Expr.node, LogLevel.maybe_from_str,
      LogLevel.rank]
    try decide
  · simp only [visit_expr, handle_call, handle_joinedstr, joined_args_loop,
      capture_changes, inner_logger_call, inner_fstring, fval_name_expr,
      Expr.node, Expr.location, Expr.end_location, List.head?,
      LogLevel.maybe_from_str, LogLevel.rank, BLACKLISTED_NAMES, get_quotes,
      get_char, split_lines, split_newlines_go, fix_fstring, fix_fstring_go,
      parse_fstring, parse_formatted_value]
    try decide

/-- C4 counterexample: splicing the multi-row change (rows 1..3, end column
1) into "AB\nCD\nEF" removes the last row entirely — its tail "F" at and
after end_col is NOT preserved, and the rows removed are not only those
strictly between the first and last row.  The claim predicts the two-line
result ["A\x27T\x27, a", "F"]; the code produces the one-line result. -/
theorem C4_counterexample :
    change_content "AB\nCD\nEF" [⟨1, 1, 3, 1, "T", ["a"], '\''⟩] =
      (["A\x27T\x27, a"], true) ∧
    (["A\x27T\x27, a"] : List String) ≠ ["A\x27T\x27, a", "F"] := by
  constructor <;> decide

/-- C4 (amended): for a Change spanning multiple rows, the splice engine
replaces from start_col to end-of-line on the first (adjusted) line with the
replacement text, removes ALL rows after the first through the last of the
span (end_row - start_row rows, which is also the amount added to
popped_rows) - so the last line's content is discarded rather than preserved
from end_col on - and appends a trailing comma to the replacement text
exactly when the removed span's last line ended with a comma. -/
theorem C4_multi_row_splice (vec : List String) (popped : Nat) (c : Change)
    (hp : popped < c.lineno) (hlt : c.lineno < c.end_lineno)
    (hlen : c.end_lineno - popped ≤ vec.length) :
    change_content_step (vec, popped) c =
      (vec.take (c.lineno - 1 - popped) ++
        [string_replace_from (vec.getD (c.lineno - 1 - popped) "") c.col_offset
          (match ((vec.drop (c.lineno - popped)).take
              (c.end_lineno - c.lineno)).getLast? with
           | some last_item =>
               if ends_with_comma last_item then new_logger c ++ ","
               else new_logger c
           | Option.none => new_logger c)] ++
        vec.drop (c.end_lineno - popped),
       popped + (c.end_lineno - c.lineno)) := by
  have hrow : ¬ (c.lineno = c.end_lineno) := by omega
  have hk1 : c.lineno - 1 - popped = c.lineno - popped - 1 := by omega
  have hsub : c.end_lineno - popped - (c.lineno - popped) =
      c.end_lineno - c.lineno := by omega
  have htklen : (vec.take (c.lineno - popped)).length = c.lineno - popped := by
    rw [List.length_take]; omega
  have hgetD : (vec.take (c.lineno - popped) ++
      vec.drop (c.end_lineno - popped)).getD (c.lineno - popped - 1) "" =
      vec.getD (c.lineno - popped - 1) "" := by
    rw [List.getD_eq_getElem?_getD, List.getD_eq_getElem?_getD,
      List.getElem?_append_left (by rw [htklen]; omega),
      List.getElem?_take, if_pos (by omega)]
  have hset : ∀ x : String,
      (vec.take (c.lineno - popped) ++ vec.drop (c.end_lineno - popped)).set
          (c.lineno - popped - 1) x =
        vec.take (c.lineno - popped - 1) ++ [x] ++
          vec.drop (c.end_lineno - popped) := by
    intro x
    have hdrop : c.lineno - popped - 1 + 1 = c.lineno - popped := by omega
    rw [List.set_eq_take_append_cons_drop,
      if_pos (by rw [List.length_append, htklen]; omega),
      List.take_append_of_le_length (by rw [htklen]; omega),
      List.take_take, hdrop]
    have hA : List.drop (c.lineno - popped)
        (vec.take (c.lineno - popped) ++ vec.drop (c.end_lineno - popped)) =
        vec.drop (c.end_lineno - popped) := by
      have h := List.drop_left (vec.take (c.lineno - popped))
        (vec.drop (c.end_lineno - popped))
      rwa [htklen] at h
    rw [hA, inf_eq_left.mpr (by omega : c.lineno - popped - 1 ≤ c.lineno - popped),
      List.append_assoc, List.singleton_append]
  simp only [change_content_step, if_neg hrow]
  rw [hk1, hsub, hgetD, hset]

/-- C4 witness: the theorem applied to the three-line array
["AB", "CD", "EF,"] with the multi-row change of rows 1..3 (the removed
span's last line ends with a comma, so the replacement gains one). -/
theorem C4_multi_row_splice_witness :
    change_content_step (["AB", "CD", "EF,"], 0) ⟨1, 1, 3, 1, "T", ["a"], '\''⟩ =
      (["AB", "CD", "EF,"].take 0 ++
        [string_replace_from (["AB", "CD", "EF,"].getD 0 "") 1
          (match ((["AB", "CD", "EF,"].drop 1).take 2).getLast? with
           | some last_item =>
               if ends_with_comma last_item then
                 new_logger ⟨1, 1, 3, 1, "T", ["a"], '\''⟩ ++ ","
               else new_logger ⟨1, 1, 3, 1, "T", ["a"], '\''⟩
           | Option.none => new_logger ⟨1, 1, 3, 1, "T", ["a"], '\''⟩)] ++
        ["AB", "CD", "EF,"].drop 3, 0 + 2) :=
  C4_multi_row_splice ["AB", "CD", "EF,"] 0 ⟨1, 1, 3, 1, "T", ["a"], '\''⟩
    (by decide) (by decide) (by decide)

end PrintfLogFormatter

